import Mathlib

/-!
Verification development for the contact-manager program in SE_HW_1_2.py:
a shallow embedding of its data model, the upcoming-birthday scheduler with
weekend roll-forward, the command handlers and dispatch loop, and the
persistence layer, together with theorems about the claims of the spec.

Python exceptions are modelled by an explicit error type and Except; machine
dates are modelled as year/month/day triples over Nat with the proleptic
Gregorian day count used for ordering, differences and weekday.
-/

/-- Errors raised by the Python code: ValueError with a message, IndexError,
KeyError.  These are the exception classes distinguished by the input_error
decorator. -/
inductive PyError where
  | valueError (msg : String)
  | indexError
  | keyError
deriving DecidableEq

instance {ε α : Type} [DecidableEq ε] [DecidableEq α] : DecidableEq (Except ε α) := fun x y =>
  match x, y with
  | .ok a, .ok b =>
    if h : a = b then isTrue (by rw [h]) else isFalse (by intro he; cases he; exact h rfl)
  | .error a, .error b =>
    if h : a = b then isTrue (by rw [h]) else isFalse (by intro he; cases he; exact h rfl)
  | .ok _, .error _ => isFalse (by intro he; cases he)
  | .error _, .ok _ => isFalse (by intro he; cases he)

/-- A calendar date, as produced by datetime(...).date(): year, month, day. -/
structure Date where
  year : Nat
  month : Nat
  day : Nat
deriving DecidableEq

/-- Gregorian leap-year rule, as implemented by the datetime library. -/
def isLeap (y : Nat) : Bool :=
  (y % 4 == 0 && y % 100 != 0) || y % 400 == 0

/-- Number of days in month m of year y. -/
def daysInMonth (y m : Nat) : Nat :=
  if m = 2 then (if isLeap y then 29 else 28)
  else if m = 4 ∨ m = 6 ∨ m = 9 ∨ m = 11 then 30
  else 31

/-- Days in year y that precede month m. -/
def daysBeforeMonth (y m : Nat) : Nat :=
  (List.range (m - 1)).foldl (fun acc i => acc + daysInMonth y (i + 1)) 0

/-- Proleptic Gregorian day number of a date (day 1 is 0001-01-01).  This is
the chronological index underlying date comparison, timedelta day counts and
weekday in the datetime library. -/
def toDays (d : Date) : Nat :=
  365 * (d.year - 1) + (d.year - 1) / 4 - (d.year - 1) / 100 + (d.year - 1) / 400
    + daysBeforeMonth d.year d.month + d.day

/-- Day of week with Monday = 0 and Sunday = 6, as returned by
date.weekday() (0001-01-01 was a Monday). -/
def weekday (d : Date) : Nat :=
  (toDays d + 6) % 7

/-- Model of the datetime(year, month, day) constructor: returns the date when
the components form a valid calendar date in the supported year range, and
fails (the constructor raises ValueError) otherwise. -/
def mkDatetime (y m d : Nat) : Option Date :=
  if 1 ≤ y ∧ y ≤ 9999 ∧ 1 ≤ m ∧ m ≤ 12 ∧ 1 ≤ d ∧ d ≤ daysInMonth y m then
    some ⟨y, m, d⟩
  else
    none

/-- Zero-pad a number to two digits, as strftime does for day and month. -/
def pad2 (n : Nat) : String :=
  if n < 10 then ("0" ++ Nat.repr n) else Nat.repr n

/-- Zero-pad a year to four digits, as strftime %Y does. -/
def pad4 (n : Nat) : String :=
  if n < 10 then ("000" ++ Nat.repr n)
  else if n < 100 then ("00" ++ Nat.repr n)
  else if n < 1000 then ("0" ++ Nat.repr n)
  else Nat.repr n

/-- strftime with format DD.MM.YYYY, the fixed output format of the program. -/
def formatDate (d : Date) : String :=
  pad2 d.day ++ (".") ++ pad2 d.month ++ (".") ++ pad4 d.year

/-- str() of a date, the ISO format YYYY-MM-DD used by show_birthday. -/
def isoDate (d : Date) : String :=
  pad4 d.year ++ ("-") ++ pad2 d.month ++ ("-") ++ pad2 d.day

/-- Model of the str.isdigit() test: nonempty and every character a digit. -/
def pyIsdigit (s : String) : Bool :=
  !s.data.isEmpty && s.data.all Char.isDigit

/-- The phone-format invariant stated by the spec: the string matches the
regular expression of exactly ten decimal digits. -/
def validPhone (s : String) : Bool :=
  s.length == 10 && s.data.all Char.isDigit

/-- A contact record: the Name field value, the list of Phone field values and
the optional Birthday field value, flattened to their payloads. -/
structure Record where
  name : String
  phones : List String
  birthday : Option Date
deriving DecidableEq

/-- An element of the list returned by get_upcoming_birthdays: the contact
name together with the congratulation date (stored by the code in DD.MM.YYYY
form; we keep the date and apply the formatting at display time). -/
structure Entry where
  name : String
  congratulation_date : Date
deriving DecidableEq

/-- The address book: an insertion-ordered mapping from names to records,
modelling the UserDict data attribute. -/
structure AddressBook where
  data : List (String × Record)
deriving DecidableEq

/-- The Name constructor: rejects the empty string. -/
def Name.init (name : String) : Except PyError String :=
  if name = "" then .error (.valueError ("Name must not be empty."))
  else .ok name

/-- The Phone constructor: requires isdigit() and length exactly 10. -/
def Phone.init (phone : String) : Except PyError String :=
  if !pyIsdigit phone || phone.length ≠ 10 then
    .error (.valueError ("Phone number must have 10 digits."))
  else .ok phone

/-- The Birthday constructor: strptime with format DD.MM.YYYY; every parse or
range failure is re-raised as the fixed ValueError. -/
def Birthday.init (s : String) : Except PyError Date :=
  match s.splitOn (".") with
  | [ds, ms, ys] =>
    if pyIsdigit ds && pyIsdigit ms && pyIsdigit ys
        && ds.length ≤ 2 && ms.length ≤ 2 && ys.length == 4 then
      match mkDatetime ((ys.toNat?).getD 0) ((ms.toNat?).getD 0) ((ds.toNat?).getD 0) with
      | some d => .ok d
      | none => .error (.valueError ("Invalid date format. Use DD.MM.YYYY"))
    else .error (.valueError ("Invalid date format. Use DD.MM.YYYY"))
  | _ => .error (.valueError ("Invalid date format. Use DD.MM.YYYY"))

/-- Record.add_phone: validate via the Phone constructor and append. -/
def Record.add_phone (r : Record) (phone : String) : Except PyError Record :=
  match Phone.init phone with
  | .error e => .error e
  | .ok p => .ok { r with phones := r.phones ++ [p] }

/-- Record.edit_phone: the flag starts True and is cleared when old_phone is
found, so the error fires exactly when old_phone is absent; then the new
number is validated and every matching phone value is overwritten. -/
def Record.edit_phone (r : Record) (old_phone new_phone : String) : Except PyError Record :=
  let phone_exists := !(r.phones.contains old_phone)
  if phone_exists then
    .error (.valueError ("Phone number to edit does not exist."))
  else if !pyIsdigit new_phone || new_phone.length ≠ 10 then
    .error (.valueError ("New phone number must be a 10-digit number."))
  else
    .ok { r with phones := r.phones.map (fun p => if p = old_phone then new_phone else p) }

/-- Lookup in the ordered dictionary underlying the address book. -/
def dictLookup : List (String × Record) → String → Option Record
  | [], _ => none
  | (k, v) :: rest, n => if k = n then some v else dictLookup rest n

/-- Assignment self.data[k] = v on the ordered dictionary: replace the value
in place when the key is present, append otherwise. -/
def dictInsert : List (String × Record) → String → Record → List (String × Record)
  | [], k, v => [(k, v)]
  | (k', v') :: rest, k, v =>
    if k' = k then (k, v) :: rest else (k', v') :: dictInsert rest k v

/-- AddressBook.add_record: store the record under its name value. -/
def AddressBook.add_record (book : AddressBook) (r : Record) : AddressBook :=
  ⟨dictInsert book.data r.name r⟩

/-- AddressBook.find: self.data.get(name). -/
def AddressBook.find (book : AddressBook) (name : String) : Option Record :=
  dictLookup book.data name

/-- self.data.values() in iteration order. -/
def AddressBook.values (book : AddressBook) : List Record :=
  book.data.map Prod.snd

/-- In-place mutation of the record stored under a name (the Python code
mutates the shared record object returned by find). -/
def AddressBook.updateValue (book : AddressBook) (name : String) (r : Record) : AddressBook :=
  ⟨book.data.map (fun kv => if kv.1 = name then (kv.1, r) else kv)⟩

/-- The per-record body of the get_upcoming_birthdays loop: skip records
without a birthday; build the candidate datetime(today.year, month, day)
(which may raise); skip candidates before today; inside the 7-day window
shift a Saturday candidate by constructing datetime(y, m, day + 2) and a
Sunday candidate by datetime(y, m, day + 1) (each of which may raise at a
month end); otherwise emit the candidate unchanged. -/
def processUser (today : Date) (user : Record) : Except PyError (Option Entry) :=
  match user.birthday with
  | none => .ok none
  | some b =>
    match mkDatetime today.year b.month b.day with
    | none => .error (.valueError ("day is out of range for month"))
    | some birthday_this_year =>
      if toDays birthday_this_year < toDays today then .ok none
      else if toDays birthday_this_year - toDays today < 7 then
        if weekday birthday_this_year = 5 then
          match mkDatetime birthday_this_year.year birthday_this_year.month
              (birthday_this_year.day + 2) with
          | none => .error (.valueError ("day is out of range for month"))
          | some shifted => .ok (some ⟨user.name, shifted⟩)
        else if weekday birthday_this_year = 6 then
          match mkDatetime birthday_this_year.year birthday_this_year.month
              (birthday_this_year.day + 1) with
          | none => .error (.valueError ("day is out of range for month"))
          | some shifted => .ok (some ⟨user.name, shifted⟩)
        else .ok (some ⟨user.name, birthday_this_year⟩)
      else .ok none

/-- The iteration of get_upcoming_birthdays over the stored records: any
exception raised while handling a record propagates, otherwise the emitted
entries are collected in store order. -/
def upcomingLoop (today : Date) : List Record → Except PyError (List Entry)
  | [] => .ok []
  | u :: rest =>
    match processUser today u with
    | .error e => .error e
    | .ok none => upcomingLoop today rest
    | .ok (some entry) =>
      match upcomingLoop today rest with
      | .error e => .error e
      | .ok tail => .ok (entry :: tail)

/-- AddressBook.get_upcoming_birthdays, with the ambient current date made an
explicit argument. -/
def get_upcoming_birthdays (book : AddressBook) (today : Date) : Except PyError (List Entry) :=
  upcomingLoop today book.values

/-- Statement-level embedding of the get_upcoming_birthdays loop that threads
the store through every iteration, recording where the method could have
written to it (it only reads). -/
def upcomingLoopSt (today : Date) (store : AddressBook) :
    List Record → Except PyError (List Entry) × AddressBook
  | [] => (.ok [], store)
  | u :: rest =>
    match processUser today u with
    | .error e => (.error e, store)
    | .ok none => upcomingLoopSt today store rest
    | .ok (some entry) =>
      match upcomingLoopSt today store rest with
      | (.error e, st) => (.error e, st)
      | (.ok tail, st) => (.ok (entry :: tail), st)

/-- get_upcoming_birthdays as a state transformer on the address book. -/
def get_upcoming_birthdays_st (book : AddressBook) (today : Date) :
    Except PyError (List Entry) × AddressBook :=
  upcomingLoopSt today book book.values

/-- The input_error decorator: render a caught exception as the fixed
one-line message for its class, pass a normal result through. -/
def input_error (r : Except PyError String) : String :=
  match r with
  | .ok s => s
  | .error .keyError => "This command can not be executed."
  | .error (.valueError _) => "Give me name and phone please."
  | .error .indexError => "There is no such information."

/-- str() of a record, the format of the __str__ method. -/
def record_str (r : Record) : String :=
  "Contact name: " ++ r.name ++ ", phones: " ++ String.intercalate ("; ") r.phones
    ++ ", birthday: "
    ++ (match r.birthday with
        | some d => formatDate d
        | none => "Not specified")

/-- The add_birthday handler: find the record, set its birthday through the
Birthday constructor, and render a ValueError from the constructor as an
Error line (the inner try/except of the handler). -/
def add_birthday_cmd (name birthday : String) (book : AddressBook) : String × AddressBook :=
  match book.find name with
  | some r =>
    match Birthday.init birthday with
    | .ok d =>
      ("Birthday added for " ++ name ++ ".", book.updateValue name { r with birthday := some d })
    | .error (.valueError msg) => ("Error: " ++ msg, book)
    | .error _ => ("Error: ", book)
  | none => ("Contact " ++ name ++ " not found.", book)

/-- The show_birthday handler. -/
def show_birthday_cmd (name : String) (book : AddressBook) : String :=
  match book.find name with
  | some r =>
    match r.birthday with
    | some d => name ++ ("\x27s birthday: ") ++ isoDate d
    | none => name ++ " does not have a birthday specified."
  | none => "Contact " ++ name ++ " not found."

/-- The body of the birthdays handler before the input_error wrapper: compute
the upcoming birthdays (exceptions propagate); when the list is nonempty the
for loop returns on its first iteration, so only the first entry is ever
rendered; an empty list yields the fixed message. -/
def birthdays_body (book : AddressBook) (today : Date) : Except PyError String :=
  match get_upcoming_birthdays book today with
  | .error e => .error e
  | .ok [] => .ok "No upcoming birthdays."
  | .ok (record :: _) =>
    .ok ("The congratulation date for " ++ record.name ++ " is "
          ++ formatDate record.congratulation_date)

/-- The birthdays handler as dispatched by main: body wrapped in input_error. -/
def birthdays (book : AddressBook) (today : Date) : String :=
  input_error (birthdays_body book today)

/-- Accumulator pass over the characters of the command line: collect
maximal runs of non-space characters. -/
def splitWsAux : List Char → List Char → List String
  | [], cur => if cur.isEmpty then [] else [String.mk cur.reverse]
  | c :: rest, cur =>
    if c = ' ' then
      if cur.isEmpty then splitWsAux rest []
      else String.mk cur.reverse :: splitWsAux rest []
    else splitWsAux rest (c :: cur)

/-- Whitespace splitting of the command line, as str.split() with no
arguments does: runs of whitespace separate the tokens and empty tokens are
dropped. -/
def splitWs (s : String) : List String :=
  splitWsAux s.data []

/-- str.lower() on the command verb. -/
def pyToLower (s : String) : String :=
  String.mk (s.data.map Char.toLower)

/-- The body of the add branch of main: build a Record from the name, add the
phone through the Phone constructor, store it; each constructor may raise. -/
def addContact (book : AddressBook) (name phone : String) : Except PyError AddressBook :=
  match Name.init name with
  | .error e => .error e
  | .ok n =>
    match Phone.init phone with
    | .error e => .error e
    | .ok p => .ok (book.add_record ⟨n, [p], none⟩)

/-- Result of one iteration of the main loop: continue with the updated book
and the printed lines, leave the loop on close/exit, or crash with an
exception that no handler catches. -/
inductive StepResult where
  | cont (book : AddressBook) (output : List String)
  | halt (book : AddressBook) (output : List String)
  | crash (err : PyError)
deriving DecidableEq

/-- One iteration of the while loop of main on a line of user input, with the
ambient current date passed explicitly for the birthdays branch.  parse_input
unpacks the first token (raising ValueError on empty input); the add, change
and phone branches run with no surrounding try/except, so any exception they
raise crashes the loop; add-birthday, show-birthday and birthdays go through
input_error-wrapped handlers. -/
def mainStep (today : Date) (book : AddressBook) (user_input : String) : StepResult :=
  match splitWs user_input with
  | [] => .crash (.valueError ("not enough values to unpack (expected at least 1, got 0)"))
  | cmd0 :: args =>
    let command := pyToLower cmd0
    if command = "close" ∨ command = "exit" then .halt book ["Good bye!"]
    else if command = "hello" then .cont book ["How can I help you?"]
    else if command = "add" then
      match args with
      | [name, phone] =>
        match addContact book name phone with
        | .error e => .crash e
        | .ok book2 => .cont book2 ["Added new contact: " ++ name ++ " - " ++ phone]
      | _ => .cont book ["Invalid number of arguments."]
    else if command = "change" then
      match args with
      | [name, new_phone] =>
        match book.find name with
        | some r =>
          match r.phones with
          | [] => .crash .indexError
          | p0 :: _ =>
            match r.edit_phone p0 new_phone with
            | .error e => .crash e
            | .ok r2 => .cont (book.updateValue name r2) ["Phone number changed for " ++ name ++ "."]
        | none => .cont book ["Contact " ++ name ++ " not found."]
      | _ => .cont book ["Invalid number of arguments."]
    else if command = "phone" then
      match args with
      | [name] =>
        match book.find name with
        | some r =>
          match r.phones with
          | [] => .crash .indexError
          | p0 :: _ => .cont book ["Phone number for " ++ name ++ ": " ++ p0]
        | none => .cont book ["Contact " ++ name ++ " not found."]
      | _ => .cont book ["Invalid number of arguments."]
    else if command = "all" then
      .cont book ("All contacts:" :: book.values.map record_str)
    else if command = "add-birthday" then
      match args with
      | [name, birthday] =>
        let res := add_birthday_cmd name birthday book
        .cont res.2 [res.1]
      | _ => .cont book ["Invalid number of arguments."]
    else if command = "show-birthday" then
      match args with
      | [name] => .cont book [show_birthday_cmd name book]
      | _ => .cont book ["Invalid number of arguments."]
    else if command = "birthdays" then
      .cont book [birthdays book today]
    else
      .cont book ["Invalid command."]

/-- Modelled from the spec: the pickle byte stream produced by pickle.dump is
not part of the sources, so the persistence collaborator is modelled per the
spec as an opaque-format snapshot encoder capable of round-tripping the data
model; the blob is a list of naturals. -/
def encodeStr (s : String) : List Nat :=
  s.length :: s.data.map Char.toNat

/-- Decoder matching encodeStr: read a length, then that many characters. -/
def decodeStr (blob : List Nat) : Option (String × List Nat) :=
  match blob with
  | [] => none
  | n :: rest =>
    if n ≤ rest.length then
      some (String.mk ((rest.take n).map Char.ofNat), rest.drop n)
    else none

/-- Encoding of an optional birthday date. -/
def encodeOptDate : Option Date → List Nat
  | none => [0]
  | some d => [1, d.year, d.month, d.day]

/-- Decoder matching encodeOptDate. -/
def decodeOptDate (blob : List Nat) : Option (Option Date × List Nat) :=
  match blob with
  | 0 :: rest => some (none, rest)
  | 1 :: y :: m :: d :: rest => some (some ⟨y, m, d⟩, rest)
  | _ => none

/-- Concatenated encodings of the elements of a list. -/
def encodePayload (enc : α → List Nat) : List α → List Nat
  | [] => []
  | a :: as => enc a ++ encodePayload enc as

/-- Length-prefixed encoding of a list. -/
def encodeList (enc : α → List Nat) (l : List α) : List Nat :=
  l.length :: encodePayload enc l

/-- Read a known number of consecutive encoded elements. -/
def decodeCount (dec : List Nat → Option (α × List Nat)) :
    Nat → List Nat → Option (List α × List Nat)
  | 0, rest => some ([], rest)
  | n + 1, rest =>
    match dec rest with
    | none => none
    | some (a, rest2) =>
      match decodeCount dec n rest2 with
      | none => none
      | some (as, rest3) => some (a :: as, rest3)

/-- Decoder matching encodeList. -/
def decodeList (dec : List Nat → Option (α × List Nat)) (blob : List Nat) :
    Option (List α × List Nat) :=
  match blob with
  | [] => none
  | n :: rest => decodeCount dec n rest

/-- Encoding of a record: name, phones, optional birthday. -/
def encodeRecord (r : Record) : List Nat :=
  encodeStr r.name ++ (encodeList encodeStr r.phones ++ encodeOptDate r.birthday)

/-- Decoder matching encodeRecord. -/
def decodeRecord (blob : List Nat) : Option (Record × List Nat) :=
  match decodeStr blob with
  | none => none
  | some (name, rest1) =>
    match decodeList decodeStr rest1 with
    | none => none
    | some (phones, rest2) =>
      match decodeOptDate rest2 with
      | none => none
      | some (bd, rest3) => some (⟨name, phones, bd⟩, rest3)

/-- Encoding of one key-record pair of the store. -/
def encodePair (kv : String × Record) : List Nat :=
  encodeStr kv.1 ++ encodeRecord kv.2

/-- Decoder matching encodePair. -/
def decodePair (blob : List Nat) : Option ((String × Record) × List Nat) :=
  match decodeStr blob with
  | none => none
  | some (k, rest1) =>
    match decodeRecord rest1 with
    | none => none
    | some (r, rest2) => some ((k, r), rest2)

/-- Modelled from the spec: pickle.dump of the address book, a full snapshot
of the store in an opaque round-trippable format. -/
def pickleDump (book : AddressBook) : List Nat :=
  encodeList encodePair book.data

/-- Modelled from the spec: pickle.load, recovering the snapshot written by
pickleDump; a malformed blob fails (pickle raises). -/
def pickleLoad (blob : List Nat) : Option AddressBook :=
  match decodeList decodePair blob with
  | none => none
  | some (d, _) => some ⟨d⟩

/-- save_data: write the pickled book to the named file of the file system,
modelled as a map from file names to blobs. -/
def save_data (book : AddressBook) (filename : String)
    (fs : String → Option (List Nat)) : String → Option (List Nat) :=
  fun f => if f = filename then some (pickleDump book) else fs f

/-- load_data: unpickle the named file, returning a fresh empty address book
when the file does not exist; a corrupt blob raises. -/
def load_data (fs : String → Option (List Nat)) (filename : String) :
    Except PyError AddressBook :=
  match fs filename with
  | none => .ok ⟨[]⟩
  | some blob =>
    match pickleLoad blob with
    | some book => .ok book
    | none => .error (.valueError ("unpickling error"))

/-! Helper lemmas. -/

theorem mkDatetime_eq {y m d : Nat} {c : Date} (h : mkDatetime y m d = some c) :
    c = ⟨y, m, d⟩ := by
  unfold mkDatetime at h
  split at h
  · exact (Option.some.inj h).symm
  · simp at h

theorem toDays_day_add (y m d k : Nat) :
    toDays ⟨y, m, d + k⟩ = toDays ⟨y, m, d⟩ + k := by
  simp only [toDays]
  omega

theorem processUser_name {today : Date} {u : Record} {e : Entry}
    (h : processUser today u = .ok (some e)) : e.name = u.name := by
  unfold processUser at h
  repeat' split at h
  all_goals cases h
  all_goals rfl

theorem upcomingLoop_ok_mem {today : Date} :
    ∀ {us : List Record} {l : List Entry}, upcomingLoop today us = .ok l →
      ∀ e : Entry, e ∈ l ↔ ∃ u ∈ us, processUser today u = .ok (some e) := by
  intro us
  induction us with
  | nil =>
    intro l h e
    simp only [upcomingLoop] at h
    obtain rfl : ([] : List Entry) = l := Except.ok.inj h
    simp
  | cons u rest ih =>
    intro l h e
    simp only [upcomingLoop] at h
    cases hp : processUser today u with
    | error err => rw [hp] at h; simp at h
    | ok x =>
      rw [hp] at h
      cases x with
      | none =>
        simp only at h
        rw [ih h e]
        constructor
        · rintro ⟨u2, hu2, hpu2⟩
          exact ⟨u2, List.mem_cons_of_mem _ hu2, hpu2⟩
        · rintro ⟨u2, hu2, hpu2⟩
          rcases List.mem_cons.mp hu2 with h1 | h1
          · subst h1
            rw [hp] at hpu2
            simp at hpu2
          · exact ⟨u2, h1, hpu2⟩
      | some entry =>
        cases hr : upcomingLoop today rest with
        | error err => rw [hr] at h; simp at h
        | ok tail =>
          rw [hr] at h
          obtain rfl : entry :: tail = l := Except.ok.inj h
          constructor
          · intro hel
            rcases List.mem_cons.mp hel with h1 | h1
            · subst h1
              exact ⟨u, List.mem_cons_self u rest, hp⟩
            · obtain ⟨u2, hu2, hpu2⟩ := (ih hr e).mp h1
              exact ⟨u2, List.mem_cons_of_mem _ hu2, hpu2⟩
          · rintro ⟨u2, hu2, hpu2⟩
            rcases List.mem_cons.mp hu2 with h1 | h1
            · subst h1
              rw [hp] at hpu2
              obtain h2 := Except.ok.inj hpu2
              obtain rfl := Option.some.inj h2
              exact List.mem_cons_self _ _
            · exact List.mem_cons_of_mem _ ((ih hr e).mpr ⟨u2, h1, hpu2⟩)

theorem upcomingLoop_ok_forall {today : Date} :
    ∀ {us : List Record} {l : List Entry}, upcomingLoop today us = .ok l →
      ∀ u ∈ us, ∃ x, processUser today u = .ok x := by
  intro us
  induction us with
  | nil => intro l _ u hu; simp at hu
  | cons u rest ih =>
    intro l h u2 hu2
    simp only [upcomingLoop] at h
    cases hp : processUser today u with
    | error err => rw [hp] at h; simp at h
    | ok x =>
      rw [hp] at h
      rcases List.mem_cons.mp hu2 with h1 | h1
      · subst h1; exact ⟨x, hp⟩
      · cases x with
        | none => exact ih h u2 h1
        | some entry =>
          cases hr : upcomingLoop today rest with
          | error err => rw [hr] at h; simp at h
          | ok tail => exact ih hr u2 h1

theorem upcomingLoop_error_of_mem {today : Date} {err : PyError} :
    ∀ {us : List Record} {u : Record}, u ∈ us → processUser today u = .error err →
      ∃ err2, upcomingLoop today us = .error err2 := by
  intro us
  induction us with
  | nil => intro u hu; simp at hu
  | cons u0 rest ih =>
    intro u hu hpu
    rcases List.mem_cons.mp hu with h1 | h1
    · subst h1
      exact ⟨err, by simp only [upcomingLoop, hpu]⟩
    · cases hp : processUser today u0 with
      | error e0 => exact ⟨e0, by simp only [upcomingLoop, hp]⟩
      | ok x =>
        obtain ⟨err2, herr2⟩ := ih h1 hpu
        cases x with
        | none => exact ⟨err2, by simp only [upcomingLoop, hp]; exact herr2⟩
        | some entry =>
          exact ⟨err2, by simp only [upcomingLoop, hp, herr2]⟩

theorem processUser_window_spec {today : Date} {r : Record} {b : Date} {cand : Date}
    {x : Option Entry}
    (hb : r.birthday = some b)
    (hc : mkDatetime today.year b.month b.day = some cand)
    (hwin : toDays today ≤ toDays cand ∧ toDays cand - toDays today < 7)
    (hx : processUser today r = .ok x) :
    ∃ e : Entry, x = some e ∧ e.name = r.name ∧
      (weekday cand = 5 → toDays e.congratulation_date = toDays cand + 2) ∧
      (weekday cand = 6 → toDays e.congratulation_date = toDays cand + 1) ∧
      (weekday cand ≠ 5 → weekday cand ≠ 6 → e.congratulation_date = cand) := by
  simp only [processUser, hb, hc] at hx
  have h1 : ¬ (toDays cand < toDays today) := by omega
  rw [if_neg h1, if_pos hwin.2] at hx
  by_cases h5 : weekday cand = 5
  · rw [if_pos h5] at hx
    cases hs : mkDatetime cand.year cand.month (cand.day + 2) with
    | none => rw [hs] at hx; simp at hx
    | some shifted =>
      rw [hs] at hx
      obtain rfl : some (⟨r.name, shifted⟩ : Entry) = x := Except.ok.inj hx
      refine ⟨⟨r.name, shifted⟩, rfl, rfl, ?_, ?_, ?_⟩
      · intro _
        obtain rfl := mkDatetime_eq hs
        show toDays ⟨cand.year, cand.month, cand.day + 2⟩ = toDays cand + 2
        rw [toDays_day_add]
      · intro h6
        rw [h5] at h6
        simp at h6
      · intro hne5 _
        exact absurd h5 hne5
  · rw [if_neg h5] at hx
    by_cases h6 : weekday cand = 6
    · rw [if_pos h6] at hx
      cases hs : mkDatetime cand.year cand.month (cand.day + 1) with
      | none => rw [hs] at hx; simp at hx
      | some shifted =>
        rw [hs] at hx
        obtain rfl : some (⟨r.name, shifted⟩ : Entry) = x := Except.ok.inj hx
        refine ⟨⟨r.name, shifted⟩, rfl, rfl, ?_, ?_, ?_⟩
        · intro h5x
          exact absurd h5x h5
        · intro _
          obtain rfl := mkDatetime_eq hs
          show toDays ⟨cand.year, cand.month, cand.day + 1⟩ = toDays cand + 1
          rw [toDays_day_add]
        · intro _ hne6
          exact absurd h6 hne6
    · rw [if_neg h6] at hx
      obtain rfl : some (⟨r.name, cand⟩ : Entry) = x := Except.ok.inj hx
      exact ⟨⟨r.name, cand⟩, rfl, rfl, fun h => absurd h h5, fun h => absurd h h6,
        fun _ _ => rfl⟩

theorem processUser_skip {today : Date} {r : Record} {b : Date} {cand : Date}
    (hb : r.birthday = some b)
    (hc : mkDatetime today.year b.month b.day = some cand)
    (hout : toDays cand < toDays today ∨ 7 ≤ toDays cand - toDays today) :
    processUser today r = .ok none := by
  simp only [processUser, hb, hc]
  rcases hout with h1 | h1
  · rw [if_pos h1]
  · rw [if_neg (by omega), if_neg (by omega)]

theorem dictLookup_insert_self (l : List (String × Record)) (k : String) (v : Record) :
    dictLookup (dictInsert l k v) k = some v := by
  induction l with
  | nil => simp [dictInsert, dictLookup]
  | cons kv rest ih =>
    rcases kv with ⟨k2, v2⟩
    simp only [dictInsert]
    by_cases h : k2 = k
    · rw [if_pos h]
      simp [dictLookup]
    · rw [if_neg h]
      simp only [dictLookup]
      rw [if_neg h]
      exact ih

theorem upcomingLoopSt_spec (today : Date) (store : AddressBook) :
    ∀ us : List Record, (upcomingLoopSt today store us).2 = store ∧
      (upcomingLoopSt today store us).1 = upcomingLoop today us := by
  intro us
  induction us with
  | nil => exact ⟨rfl, rfl⟩
  | cons u rest ih =>
    simp only [upcomingLoopSt, upcomingLoop]
    cases hp : processUser today u with
    | error e => exact ⟨rfl, rfl⟩
    | ok x =>
      cases x with
      | none => exact ih
      | some entry =>
        rcases h : upcomingLoopSt today store rest with ⟨res, st⟩
        rw [h] at ih
        obtain ⟨ih1, ih2⟩ := ih
        cases res with
        | error e =>
          simp only at ih1 ih2
          exact ⟨ih1, by rw [← ih2]⟩
        | ok tail =>
          simp only at ih1 ih2
          exact ⟨ih1, by rw [← ih2]⟩

theorem map_ofNat_toNat (cs : List Char) :
    List.map (Char.ofNat ∘ Char.toNat) cs = cs := by
  induction cs with
  | nil => rfl
  | cons c cs2 ih => simp only [List.map_cons, Function.comp_apply, Char.ofNat_toNat, ih]

theorem decodeStr_encodeStr (s : String) (r : List Nat) :
    decodeStr (encodeStr s ++ r) = some (s, r) := by
  obtain ⟨cs⟩ := s
  have hlen : (cs.map Char.toNat).length = String.length ⟨cs⟩ := by
    simp [String.length]
  have hm := map_ofNat_toNat cs
  simp only [encodeStr, List.cons_append, decodeStr]
  rw [if_pos (by rw [List.length_append, hlen]; omega)]
  rw [List.take_left' hlen, List.drop_left' hlen]
  simp [hm]

theorem decodeOptDate_encodeOptDate (bd : Option Date) (r : List Nat) :
    decodeOptDate (encodeOptDate bd ++ r) = some (bd, r) := by
  cases bd with
  | none => rfl
  | some d => rfl

theorem decodeCount_encodePayload {α : Type} (dec : List Nat → Option (α × List Nat))
    (enc : α → List Nat) (henc : ∀ a r, dec (enc a ++ r) = some (a, r)) :
    ∀ (l : List α) (r : List Nat),
      decodeCount dec l.length (encodePayload enc l ++ r) = some (l, r) := by
  intro l
  induction l with
  | nil => intro r; rfl
  | cons a as ih =>
    intro r
    simp only [encodePayload, List.length_cons, List.append_assoc, decodeCount, henc, ih]

theorem decodeList_encodeList {α : Type} (dec : List Nat → Option (α × List Nat))
    (enc : α → List Nat) (henc : ∀ a r, dec (enc a ++ r) = some (a, r))
    (l : List α) (r : List Nat) :
    decodeList dec (encodeList enc l ++ r) = some (l, r) := by
  simp only [encodeList, List.cons_append, decodeList]
  exact decodeCount_encodePayload dec enc henc l r

theorem decodeRecord_encodeRecord (rec : Record) (r : List Nat) :
    decodeRecord (encodeRecord rec ++ r) = some (rec, r) := by
  simp only [encodeRecord, List.append_assoc, decodeRecord, decodeStr_encodeStr,
    decodeList_encodeList decodeStr encodeStr decodeStr_encodeStr,
    decodeOptDate_encodeOptDate]

theorem decodePair_encodePair (kv : String × Record) (r : List Nat) :
    decodePair (encodePair kv ++ r) = some (kv, r) := by
  simp only [encodePair, List.append_assoc, decodePair, decodeStr_encodeStr,
    decodeRecord_encodeRecord]

theorem pickleLoad_pickleDump (book : AddressBook) :
    pickleLoad (pickleDump book) = some book := by
  have h := decodeList_encodeList decodePair encodePair decodePair_encodePair book.data []
  rw [List.append_nil] at h
  simp only [pickleDump, pickleLoad, h]

theorem Phone_init_ok_val {p v : String} (h : Phone.init p = .ok v) : v = p := by
  unfold Phone.init at h
  split at h
  · cases h
  · exact (Except.ok.inj h).symm

theorem validPhone_of_cond {s : String}
    (h : (!pyIsdigit s || decide (s.length ≠ 10)) = false) : validPhone s = true := by
  obtain ⟨ha, hb⟩ := Bool.or_eq_false_iff.mp h
  have hpy : pyIsdigit s = true := by
    cases hpp : pyIsdigit s
    · rw [hpp] at ha; simp at ha
    · rfl
  have hl : s.length = 10 := by
    have := of_decide_eq_false hb
    omega
  simp only [pyIsdigit, Bool.and_eq_true] at hpy
  simp [validPhone, hl, hpy.2]

theorem cond_of_validPhone {s : String}
    (h : validPhone s = true) : (!pyIsdigit s || decide (s.length ≠ 10)) = false := by
  simp only [validPhone, Bool.and_eq_true, beq_iff_eq] at h
  have hemp : s.data.isEmpty = false := by
    rcases s with ⟨cs⟩
    cases cs with
    | nil => simp [String.length] at h
    | cons c cs2 => rfl
  simp [pyIsdigit, hemp, h.1, h.2]

theorem Phone_init_ok_iff (s : String) :
    (∃ v, Phone.init s = .ok v) ↔ validPhone s = true := by
  constructor
  · rintro ⟨v, hv⟩
    unfold Phone.init at hv
    split at hv
    · cases hv
    · rename_i hcond
      apply validPhone_of_cond
      cases hcc : (!pyIsdigit s || decide (s.length ≠ 10))
      · rfl
      · exact absurd hcc hcond
  · intro hval
    refine ⟨s, ?_⟩
    unfold Phone.init
    rw [if_neg]
    rw [cond_of_validPhone hval]
    simp

theorem add_phone_inv (r : Record) (p : String) (r2 : Record)
    (hinv : r.phones.all validPhone = true) (h : r.add_phone p = .ok r2) :
    r2.phones.all validPhone = true := by
  unfold Record.add_phone at h
  cases hp : Phone.init p with
  | error e => rw [hp] at h; cases h
  | ok v =>
    rw [hp] at h
    obtain rfl := Except.ok.inj h
    have hvp : v = p := Phone_init_ok_val hp
    have hv : validPhone v = true := by
      rw [hvp]
      exact (Phone_init_ok_iff p).mp ⟨v, hp⟩
    simp only [List.all_append, hinv, Bool.true_and]
    simp [hv]

theorem edit_phone_inv (r : Record) (o np : String) (r2 : Record)
    (hinv : r.phones.all validPhone = true) (h : r.edit_phone o np = .ok r2) :
    r2.phones.all validPhone = true := by
  simp only [Record.edit_phone] at h
  by_cases hex : (!r.phones.contains o) = true
  · rw [if_pos hex] at h; cases h
  · rw [if_neg hex] at h
    by_cases hcc : (!pyIsdigit np || decide (np.length ≠ 10)) = true
    · rw [if_pos hcc] at h; cases h
    · rw [if_neg hcc] at h
      obtain rfl := Except.ok.inj h
      have hnp : validPhone np = true := by
        apply validPhone_of_cond
        cases hcc2 : (!pyIsdigit np || decide (np.length ≠ 10))
        · rfl
        · exact absurd hcc2 hcc
      simp only [List.all_eq_true] at hinv ⊢
      intro x hx
      simp only [List.mem_map] at hx
      obtain ⟨p0, hp0, hpe⟩ := hx
      by_cases he : p0 = o
      · rw [if_pos he] at hpe
        rw [← hpe]
        exact hnp
      · rw [if_neg he] at hpe
        rw [← hpe]
        exact hinv p0 hp0

/-! Claim theorems. -/

/-- C1: the weekend roll-forward does not survive a month boundary.  For the
record whose this-year candidate 2024-06-29 is a Saturday on the last
Saturday slot of June and today = Monday 2024-06-24 (delta 5, inside the
window), get_upcoming_birthdays evaluates datetime(2024, 6, 31), which raises
ValueError instead of producing the following Monday 2024-07-01: the roll
over the month boundary fails rather than producing a valid date. -/
theorem C1_month_end_rollforward_raises :
    get_upcoming_birthdays
        ⟨[(("Anna"), ⟨"Anna", [("1234567890")], some ⟨1990, 6, 29⟩⟩)]⟩
        ⟨2024, 6, 24⟩
      = .error (.valueError ("day is out of range for month")) := by
  rfl

/-- C2: errors raised in the add branch of the main loop are not caught at
the dispatch boundary: on the command line add John 123 the Phone constructor
raises ValueError and the iteration crashes with that uncaught exception, for
every current date, instead of rendering a one-line message and continuing. -/
theorem C2_main_loop_crashes_on_invalid_add (today : Date) :
    mainStep today ⟨[]⟩ ("add John 123")
      = .crash (.valueError ("Phone number must have 10 digits.")) := by
  rfl

/-- C3: when get_upcoming_birthdays returns normally on a book whose records
carry distinct names, a record with a birthday is included exactly when its
candidate date(today.year, month, day) satisfies 0 ≤ candidate − today < 7:
a candidate strictly before today is skipped with no wraparound to the next
year, a candidate 7 or more days away is skipped, and delta = 0 is
included. -/
theorem C3_window_membership (book : AddressBook) (today : Date)
    (l : List Entry) (h : get_upcoming_birthdays book today = .ok l)
    (hnd : (book.values.map (fun u => u.name)).Nodup)
    (r : Record) (hr : r ∈ book.values) (b : Date) (hb : r.birthday = some b)
    (cand : Date) (hc : mkDatetime today.year b.month b.day = some cand) :
    (∃ e ∈ l, e.name = r.name) ↔
      (toDays today ≤ toDays cand ∧ toDays cand - toDays today < 7) := by
  constructor
  · rintro ⟨e, hel, hename⟩
    obtain ⟨u, hu, hpu⟩ := (upcomingLoop_ok_mem h e).mp hel
    have huname : e.name = u.name := processUser_name hpu
    have hur : u = r := List.inj_on_of_nodup_map hnd hu hr (by rw [← huname, hename])
    subst hur
    by_contra hcon
    have hskip : processUser today u = .ok none := by
      apply processUser_skip hb hc
      omega
    rw [hskip] at hpu
    simp at hpu
  · intro hwin
    obtain ⟨x, hx⟩ := upcomingLoop_ok_forall h r hr
    obtain ⟨e, hxe, hename, _⟩ := processUser_window_spec hb hc hwin hx
    subst hxe
    exact ⟨e, (upcomingLoop_ok_mem h e).mpr ⟨r, hr, hx⟩, hename⟩

/-- Witness for C3 at a concrete qualifying record: Anna with birthday
June 12 and today = 2024-06-10, two days ahead. -/
theorem C3_window_membership_witness :
    (∃ e ∈ [Entry.mk ("Anna") ⟨2024, 6, 12⟩], e.name = "Anna") ↔
      (toDays ⟨2024, 6, 10⟩ ≤ toDays ⟨2024, 6, 12⟩ ∧
        toDays ⟨2024, 6, 12⟩ - toDays ⟨2024, 6, 10⟩ < 7) :=
  C3_window_membership ⟨[(("Anna"), ⟨"Anna", [], some ⟨1990, 6, 12⟩⟩)]⟩ ⟨2024, 6, 10⟩
    [⟨"Anna", ⟨2024, 6, 12⟩⟩] (by decide) (by decide)
    ⟨"Anna", [], some ⟨1990, 6, 12⟩⟩ (by decide) ⟨1990, 6, 12⟩ rfl
    ⟨2024, 6, 12⟩ (by decide)

/-- C4: every qualifying record (candidate inside the 0-6 day window) is
emitted, when the call returns normally, with congratulation_date equal to
candidate + 2 days when the candidate falls on Saturday, candidate + 1 day
when it falls on Sunday, and the candidate itself on any other weekday. -/
theorem C4_weekend_shift (book : AddressBook) (today : Date)
    (l : List Entry) (h : get_upcoming_birthdays book today = .ok l)
    (r : Record) (hr : r ∈ book.values) (b : Date) (hb : r.birthday = some b)
    (cand : Date) (hc : mkDatetime today.year b.month b.day = some cand)
    (hwin : toDays today ≤ toDays cand ∧ toDays cand - toDays today < 7) :
    ∃ e ∈ l, e.name = r.name ∧
      (weekday cand = 5 → toDays e.congratulation_date = toDays cand + 2) ∧
      (weekday cand = 6 → toDays e.congratulation_date = toDays cand + 1) ∧
      (weekday cand ≠ 5 → weekday cand ≠ 6 → e.congratulation_date = cand) := by
  obtain ⟨x, hx⟩ := upcomingLoop_ok_forall h r hr
  obtain ⟨e, hxe, hename, hsat, hsun, hwk⟩ := processUser_window_spec hb hc hwin hx
  subst hxe
  exact ⟨e, (upcomingLoop_ok_mem h e).mpr ⟨r, hr, hx⟩, hename, hsat, hsun, hwk⟩

/-- Witness for C4 at the spec scenario: today = Monday 2024-06-10, birthday
June 15, candidate Saturday 2024-06-15 emitted as Monday 2024-06-17. -/
theorem C4_weekend_shift_witness :
    ∃ e ∈ [Entry.mk ("Anna") ⟨2024, 6, 17⟩],
      e.name = "Anna" ∧
      (weekday ⟨2024, 6, 15⟩ = 5 →
        toDays e.congratulation_date = toDays ⟨2024, 6, 15⟩ + 2) ∧
      (weekday ⟨2024, 6, 15⟩ = 6 →
        toDays e.congratulation_date = toDays ⟨2024, 6, 15⟩ + 1) ∧
      (weekday ⟨2024, 6, 15⟩ ≠ 5 → weekday ⟨2024, 6, 15⟩ ≠ 6 →
        e.congratulation_date = ⟨2024, 6, 15⟩) :=
  C4_weekend_shift ⟨[(("Anna"), ⟨"Anna", [], some ⟨1990, 6, 15⟩⟩)]⟩ ⟨2024, 6, 10⟩
    [⟨"Anna", ⟨2024, 6, 17⟩⟩] (by decide)
    ⟨"Anna", [], some ⟨1990, 6, 15⟩⟩ (by decide) ⟨1990, 6, 15⟩ rfl
    ⟨2024, 6, 15⟩ (by decide) (by decide)

/-- C5: a record whose stored birthday is February 29 makes
get_upcoming_birthdays raise deterministically whenever today.year is not a
leap year: datetime(today.year, 2, 29) cannot be constructed, so the call
signals a date error rather than silently producing some other date. -/
theorem C5_feb29_nonleap_raises (book : AddressBook) (today : Date)
    (n : String) (r : Record) (hmem : (n, r) ∈ book.data)
    (b : Date) (hb : r.birthday = some b) (hm : b.month = 2) (hd : b.day = 29)
    (hleap : isLeap today.year = false) :
    ∃ err, get_upcoming_birthdays book today = .error err := by
  have hr : r ∈ book.values := List.mem_map_of_mem Prod.snd hmem
  have hnone : mkDatetime today.year b.month b.day = none := by
    rw [hm, hd]
    unfold mkDatetime
    rw [if_neg]
    simp [daysInMonth, hleap]
  have hpu : processUser today r = .error (.valueError ("day is out of range for month")) := by
    simp only [processUser, hb, hnone]
  exact upcomingLoop_error_of_mem hr hpu

/-- Witness for C5: Zoe, born 2020-02-29, against the non-leap year 2023. -/
theorem C5_feb29_nonleap_raises_witness :
    ∃ err, get_upcoming_birthdays ⟨[(("Zoe"), ⟨"Zoe", [], some ⟨2020, 2, 29⟩⟩)]⟩
      ⟨2023, 3, 1⟩ = .error err :=
  C5_feb29_nonleap_raises ⟨[(("Zoe"), ⟨"Zoe", [], some ⟨2020, 2, 29⟩⟩)]⟩ ⟨2023, 3, 1⟩
    ("Zoe") ⟨"Zoe", [], some ⟨2020, 2, 29⟩⟩ (by decide)
    ⟨2020, 2, 29⟩ rfl rfl rfl (by decide)

/-- C6: the Phone constructor accepts a string exactly when it matches the
ten-decimal-digit format (so a five-digit string fails with ValueError while
a ten-digit numeric string succeeds), and both add_phone and edit_phone
preserve the invariant that every stored phone string is ten decimal
digits. -/
theorem C6_phone_validation :
    (∀ s : String, (∃ v, Phone.init s = .ok v) ↔ validPhone s = true) ∧
    (∀ (r : Record) (p : String) (r2 : Record),
      r.phones.all validPhone = true → r.add_phone p = .ok r2 →
        r2.phones.all validPhone = true) ∧
    (∀ (r : Record) (o np : String) (r2 : Record),
      r.phones.all validPhone = true → r.edit_phone o np = .ok r2 →
        r2.phones.all validPhone = true) :=
  ⟨Phone_init_ok_iff, add_phone_inv, edit_phone_inv⟩

/-- Witness for C6: the ten-digit example succeeds and the five-digit
example is rejected. -/
theorem C6_phone_validation_witness :
    (∃ v, Phone.init ("1234567890") = .ok v) ∧ ¬ (∃ v, Phone.init ("12345") = .ok v) :=
  ⟨(C6_phone_validation.1 ("1234567890")).mpr (by decide),
    fun hex => absurd ((C6_phone_validation.1 ("12345")).mp hex) (by decide)⟩

/-- C7: get_upcoming_birthdays is a pure read: threading the store through
every statement of the loop returns it unchanged, and the value computed by
the state-threaded embedding is the same as that of the pure function. -/
theorem C7_pure_read (book : AddressBook) (today : Date) :
    (get_upcoming_birthdays_st book today).2 = book ∧
      (get_upcoming_birthdays_st book today).1 = get_upcoming_birthdays book today :=
  upcomingLoopSt_spec today book book.values

/-- C8: the persistence round-trip is the identity on the data model: saving
any address book with save_data and reloading the same file with load_data
returns a book with the identical contacts, phones and birthdays. -/
theorem C8_save_load_roundtrip (book : AddressBook) (filename : String)
    (fs : String → Option (List Nat)) :
    load_data (save_data book filename fs) filename = .ok book := by
  simp [load_data, save_data, pickleLoad_pickleDump]

/-- C9: when at least one record qualifies, the birthdays handler returns a
message describing exactly the first element of the result of
get_upcoming_birthdays (the for loop returns on its first iteration), and
only when none qualify does it return the no-upcoming-birthdays message. -/
theorem C9_birthdays_first_only (book : AddressBook) (today : Date)
    (l : List Entry) (h : get_upcoming_birthdays book today = .ok l) :
    birthdays book today =
      match l with
      | [] => "No upcoming birthdays."
      | record :: _ =>
        "The congratulation date for " ++ record.name ++ " is "
          ++ formatDate record.congratulation_date := by
  cases l with
  | nil => simp [birthdays, birthdays_body, input_error, h]
  | cons e rest => simp [birthdays, birthdays_body, input_error, h]

/-- Witness for C9: with Anna and Bob both qualifying, only Anna, the first
entry, is rendered. -/
theorem C9_birthdays_first_only_witness :
    birthdays ⟨[(("Anna"), ⟨"Anna", [], some ⟨1990, 6, 12⟩⟩),
                (("Bob"), ⟨"Bob", [], some ⟨1990, 6, 13⟩⟩)]⟩ ⟨2024, 6, 10⟩
      = "The congratulation date for Anna is 12.06.2024" :=
  C9_birthdays_first_only
    ⟨[(("Anna"), ⟨"Anna", [], some ⟨1990, 6, 12⟩⟩),
      (("Bob"), ⟨"Bob", [], some ⟨1990, 6, 13⟩⟩)]⟩ ⟨2024, 6, 10⟩
    [⟨"Anna", ⟨2024, 6, 12⟩⟩, ⟨"Bob", ⟨2024, 6, 13⟩⟩] (by decide)

/-- C10: executing the add command body on a book that already contains a
record under the same name replaces it wholesale: afterwards the store maps
that name to a fresh record holding only the new phone and no birthday. -/
theorem C10_add_replaces (book : AddressBook) (N P : String) (old : Record)
    (book2 : AddressBook)
    (hold : book.find N = some old)
    (h : addContact book N P = .ok book2) :
    book2.find N = some ⟨N, [P], none⟩ := by
  unfold addContact at h
  cases hn : Name.init N with
  | error e => rw [hn] at h; cases h
  | ok n =>
    rw [hn] at h
    cases hp : Phone.init P with
    | error e => rw [hp] at h; cases h
    | ok p =>
      rw [hp] at h
      obtain rfl := Except.ok.inj h
      have hnN : n = N := by
        unfold Name.init at hn
        split at hn
        · cases hn
        · exact (Except.ok.inj hn).symm
      have hpP : p = P := Phone_init_ok_val hp
      rw [hnN, hpP]
      unfold AddressBook.add_record AddressBook.find
      exact dictLookup_insert_self book.data N ⟨N, [P], none⟩

/-- Witness for C10: adding John with a new phone over an existing John with
a different phone and a birthday leaves only the fresh record. -/
theorem C10_add_replaces_witness :
    AddressBook.find ⟨[(("John"), ⟨"John", [("1234567890")], none⟩)]⟩ ("John")
      = some ⟨"John", [("1234567890")], none⟩ :=
  C10_add_replaces ⟨[(("John"), ⟨"John", [("1111111111")], some ⟨1990, 1, 2⟩⟩)]⟩
    ("John") ("1234567890") ⟨"John", [("1111111111")], some ⟨1990, 1, 2⟩⟩
    ⟨[(("John"), ⟨"John", [("1234567890")], none⟩)]⟩ (by decide) (by decide)
